import Mathlib

/-!
The command `scw exec`: the ssh argument vector and the readiness waits.

A shallow embedding of `exec.go`: the construction of the ssh argument vector
(`NewSshExecCmd`), the two polling loops (`WaitForServerState`,
`WaitForTcpPortOpen`), their composition (`WaitForServerReady`) and the command
entry point (`runExec`), followed by the properties stated about them.

Go strings are represented by `String` (sequences of code points, that is,
valid UTF-8).  The outside world (the server API, the network, the ssh child
process) is a record of response sequences that the code consumes in order,
together with the trace of the effects performed so far.
-/

namespace ScwExec

/-! ## Standard-library pieces used by `NewSshExecCmd` -/

/-- The process context read by the code: `os.Getenv` (the empty string for an
unset variable) and the print table of `strconv` for code points above U+00FF
(the tables `isPrint16`, `isPrint32` and their exceptions), which is passed in
rather than transcribed. -/
structure Context where
  Getenv : String → String
  isPrintWide : Char → Bool

/-- The digits `strconv` uses for hexadecimal escapes. -/
def lowerhex : List Char :=
  ['0', '1', '2', '3', '4', '5', '6', '7', '8', '9', 'a', 'b', 'c', 'd', 'e', 'f']

/-- The hexadecimal digit `lowerhex[n]`. -/
def hexDigit (n : Nat) : Char := lowerhex.getD n '0'

/-- The function `strconv.IsPrint`: the fast path for Latin-1 is spelled out,
the table lookup for larger code points is `isPrintWide`. -/
def IsPrint (isPrintWide : Char → Bool) (r : Char) : Bool :=
  if r.toNat ≤ 0xFF then
    if 0x20 ≤ r.toNat ∧ r.toNat ≤ 0x7E then true
    else if 0xA1 ≤ r.toNat ∧ r.toNat ≤ 0xFF then decide (r.toNat ≠ 0xAD)
    else false
  else isPrintWide r

/-- The function `appendEscapedRune` of `strconv` with `ASCIIonly` and
`graphicOnly` false, returning the characters appended for the rune `r`. -/
def escapedRune (isPrintWide : Char → Bool) (r : Char) (quote : Char) : List Char :=
  if r = quote ∨ r = '\\' then ['\\', r]
  else if IsPrint isPrintWide r then [r]
  else if r.toNat = 0x07 then ['\\', 'a']
  else if r.toNat = 0x08 then ['\\', 'b']
  else if r.toNat = 0x0C then ['\\', 'f']
  else if r = '\n' then ['\\', 'n']
  else if r = '\r' then ['\\', 'r']
  else if r = '\t' then ['\\', 't']
  else if r.toNat = 0x0B then ['\\', 'v']
  else if r.toNat < 0x20 ∨ r.toNat = 0x7F then
    ['\\', 'x', hexDigit (r.toNat / 16), hexDigit (r.toNat % 16)]
  else if r.toNat < 0x10000 then
    ['\\', 'u', hexDigit (r.toNat / 4096 % 16), hexDigit (r.toNat / 256 % 16),
      hexDigit (r.toNat / 16 % 16), hexDigit (r.toNat % 16)]
  else
    ['\\', 'U', hexDigit (r.toNat / 268435456 % 16), hexDigit (r.toNat / 16777216 % 16),
      hexDigit (r.toNat / 1048576 % 16), hexDigit (r.toNat / 65536 % 16),
      hexDigit (r.toNat / 4096 % 16), hexDigit (r.toNat / 256 % 16),
      hexDigit (r.toNat / 16 % 16), hexDigit (r.toNat % 16)]

/-- The body of the loop of `appendQuotedWith`: every rune of the input is
escaped in turn. -/
def escapedRunes (isPrintWide : Char → Bool) (quote : Char) : List Char → List Char
  | [] => []
  | r :: rest => escapedRune isPrintWide r quote ++ escapedRunes isPrintWide quote rest

/-- The function `strconv.Quote`, which is what `fmt.Sprintf("%q", s)` yields
for a string: the escaped runes between two double quotes. -/
def Quote (isPrintWide : Char → Bool) (s : String) : String :=
  String.mk ('"' :: (escapedRunes isPrintWide '"' s.data ++ ['"']))

/-- The function `strings.Join`. -/
def Join : List String → String → String
  | [], _ => ""
  | [a], _ => a
  | a :: b :: rest, sep => a ++ sep ++ Join (b :: rest) sep

/-! ## The ssh argument vector -/

/-- The function `NewSshExecCmd` of `exec.go`, one `append` per step. -/
def NewSshExecCmd (ctx : Context) (ipAddress : String) (allocateTTY : Bool)
    (command : List String) : List String :=
  let execCmd : List String := []
  let execCmd := if ctx.Getenv "DEBUG" ≠ "1" then execCmd ++ ["-q"] else execCmd
  let execCmd :=
    if ctx.Getenv "exec_secure" ≠ "1" then
      execCmd ++ ["-o", "UserKnownHostsFile=/dev/null", "-o", "StrictHostKeyChecking=no"]
    else execCmd
  let execCmd := execCmd ++ ["-l", "root", ipAddress]
  let execCmd := if allocateTTY then execCmd ++ ["-t"] else execCmd
  let execCmd := execCmd ++ ["--", "/bin/sh", "-e"]
  let execCmd := if ctx.Getenv "DEBUG" = "1" then execCmd ++ ["-x"] else execCmd
  let execCmd := execCmd ++ ["-c"]
  let execCmd := execCmd ++ [Quote ctx.isPrintWide (Join command " ")]
  execCmd

/-- An environment given by the values of `DEBUG` and `exec_secure`. -/
def envOf (debug secure : String) : String → String := fun k =>
  if k = "DEBUG" then debug else if k = "exec_secure" then secure else ""

/-- A context with the given `DEBUG` and `exec_secure` and a print table that
accepts every code point above U+00FF. -/
def ctxOf (debug secure : String) : Context :=
  { Getenv := envOf debug secure, isPrintWide := fun _ => true }

/-! ## Reading an argument back with a POSIX shell

The claim about quoting is stated against the token recognition and quote
removal of the POSIX shell command language (sections 2.2 and 2.3 of the
standard).  The scanner below covers the fragment without expansions and
operators: blanks separate words, a backslash, single quotes and double quotes
quote as the standard says, and an input that needs anything else (an
expansion, an operator, a pattern character, an unterminated quote) has no
result. -/

/-- The scanner states: outside quotes, after an unquoted backslash, inside
single quotes, inside double quotes, after a backslash inside double quotes. -/
inductive ShMode
  | plain
  | plainEsc
  | single
  | double
  | doubleEsc
  deriving DecidableEq, Repr

/-- The single quote character. -/
def shSingleQuote : Char := Char.ofNat 39

/-- The backquote character. -/
def shBackquote : Char := Char.ofNat 96

/-- Characters that are operators, start an expansion or a comment, or are
pattern characters when they stand unquoted. -/
def shSpecial (c : Char) : Bool :=
  c ∈ ['|', '&', ';', '<', '>', '(', ')', '$', shBackquote, '\n',
    '*', '?', '[', '#', '~', '=', '%']

/-- The words recognised so far, with the word in progress closed. -/
def shFlush (cur : Option (List Char)) (acc : List String) : List String :=
  match cur with
  | none => acc
  | some w => acc ++ [String.mk w]

/-- The word in progress extended by one character. -/
def shPut (cur : Option (List Char)) (c : Char) : Option (List Char) :=
  some (cur.getD [] ++ [c])

/-- Token recognition and quote removal, one character per step. -/
def shScan : ShMode → Option (List Char) → List String → List Char → Option (List String)
  | .plain, cur, acc, [] => some (shFlush cur acc)
  | .plain, cur, acc, c :: rest =>
    if c = ' ' ∨ c = '\t' then shScan .plain none (shFlush cur acc) rest
    else if c = '\\' then shScan .plainEsc cur acc rest
    else if c = shSingleQuote then shScan .single (some (cur.getD [])) acc rest
    else if c = '"' then shScan .double (some (cur.getD [])) acc rest
    else if shSpecial c then none
    else shScan .plain (shPut cur c) acc rest
  | .plainEsc, _, _, [] => none
  | .plainEsc, cur, acc, c :: rest =>
    if c = '\n' then shScan .plain cur acc rest
    else shScan .plain (shPut cur c) acc rest
  | .single, _, _, [] => none
  | .single, cur, acc, c :: rest =>
    if c = shSingleQuote then shScan .plain cur acc rest
    else shScan .single (shPut cur c) acc rest
  | .double, _, _, [] => none
  | .double, cur, acc, c :: rest =>
    if c = '"' then shScan .plain cur acc rest
    else if c = '\\' then shScan .doubleEsc cur acc rest
    else if c = '$' ∨ c = shBackquote then none
    else shScan .double (shPut cur c) acc rest
  | .doubleEsc, _, _, [] => none
  | .doubleEsc, cur, acc, c :: rest =>
    if c = '$' ∨ c = shBackquote ∨ c = '"' ∨ c = '\\' then shScan .double (shPut cur c) acc rest
    else if c = '\n' then shScan .double cur acc rest
    else shScan .double (shPut (shPut cur '\\') c) acc rest

/-- The words a POSIX shell reads from `s`, when `s` lies in the fragment. -/
def posixWords (s : String) : Option (List String) :=
  shScan .plain none [] s.data

/-! ## The outside world -/

/-- A Go `error` value, identified by its message. -/
abbrev Error := String

/-- Modelled from the spec: the address part of a server record, whose
declaration is not in `exec.go`; the code reads its field `IP`. -/
structure ScalewayIPAddress where
  IP : String
  deriving DecidableEq, Repr

/-- Modelled from the spec: the server record (identifier, lifecycle state,
public address), whose declaration is not in `exec.go`; the code reads the
fields `State` and `PublicAddress.IP`. -/
structure ScalewayServer where
  Identifier : String
  State : String
  PublicAddress : ScalewayIPAddress
  deriving DecidableEq, Repr

/-- A Go result pair `(value, err)`: `failure err` is `(nil, err)` and
`value v` is `(v, nil)`. -/
inductive Result (α : Type) where
  | value (v : α)
  | failure (err : Error)
  deriving DecidableEq, Repr

/-- The outcome of one `net.Dial`. -/
inductive DialOutcome where
  | connected
  | refused (err : Error)
  deriving DecidableEq, Repr

/-- The effects the code performs, in the order it performs them. -/
inductive Event where
  | printUsage
  | printShortUsage
  | resolve (token : String)
  | getServer (serverId : String)
  | sleep (seconds : Nat)
  | dial (network dest : String)
  | close (dest : String)
  | run (name : String) (argv : List String)
  deriving DecidableEq, Repr

/-- The world: the responses the API will give to the successive `GetServer`
calls, the outcomes of the successive `net.Dial` calls, the results of the
successive `spawn.Run()` calls, and the trace of effects so far. -/
structure World where
  servers : List (Result ScalewayServer)
  dials : List DialOutcome
  runs : List (Option Error)
  trace : List Event
  deriving DecidableEq, Repr

/-- How a run of `runExec` ends: it returns, the process exits (with the
status when the code fixes one), or the Go runtime panics. -/
inductive Exit where
  | returned
  | exited (status : Option Nat)
  | panicked
  deriving DecidableEq, Repr

/-! ## The readiness waits

Every function takes the world and returns its result with the new world; the
result is `none` only when the world has no further response to give, which is
the model running out of input and not a behaviour of the code. -/

/-- The call `api.GetServer(serverId)`: the next response of the API. -/
def apiGetServer (serverId : String) (w : World) : Option (Result ScalewayServer × World) :=
  match w.servers with
  | [] => none
  | resp :: rest =>
    some (resp, { w with servers := rest, trace := w.trace ++ [Event.getServer serverId] })

/-- The loop of `WaitForServerState`, over the remaining responses and the
trace. -/
def WaitForServerStateLoop (serverId targetState : String) :
    List (Result ScalewayServer) → List Event →
      Option (Result ScalewayServer × List (Result ScalewayServer) × List Event)
  | [], _ => none
  | resp :: rest, trace =>
    match resp with
    | .failure err => some (.failure err, rest, trace ++ [Event.getServer serverId])
    | .value server =>
      if server.State = targetState then
        some (.value server, rest, trace ++ [Event.getServer serverId])
      else
        WaitForServerStateLoop serverId targetState rest
          (trace ++ [Event.getServer serverId] ++ [Event.sleep 1])

/-- The function `WaitForServerState` of `exec.go`. -/
def WaitForServerState (serverId targetState : String) (w : World) :
    Option (Result ScalewayServer × World) :=
  match WaitForServerStateLoop serverId targetState w.servers w.trace with
  | none => none
  | some (r, servers, trace) => some (r, { w with servers := servers, trace := trace })

/-- The loop of `WaitForTcpPortOpen`, over the remaining dial outcomes and the
trace; it ends at the first successful dial. -/
def WaitForTcpPortOpenLoop (dest : String) :
    List DialOutcome → List Event → Option (List DialOutcome × List Event)
  | [], _ => none
  | outcome :: rest, trace =>
    match outcome with
    | .connected => some (rest, trace ++ [Event.dial "tcp" dest])
    | .refused _ =>
      WaitForTcpPortOpenLoop dest rest (trace ++ [Event.dial "tcp" dest] ++ [Event.sleep 1])

/-- The function `WaitForTcpPortOpen` of `exec.go`: the deferred `conn.Close()`
runs when the function returns, and the returned error is always `nil`. -/
def WaitForTcpPortOpen (dest : String) (w : World) : Option (Option Error × World) :=
  match WaitForTcpPortOpenLoop dest w.dials w.trace with
  | none => none
  | some (dials, trace) =>
    some (none, { w with dials := dials, trace := trace ++ [Event.close dest] })

/-- The function `WaitForServerReady` of `exec.go`. -/
def WaitForServerReady (serverId : String) (w : World) :
    Option (Result ScalewayServer × World) :=
  match WaitForServerState serverId "running" w with
  | none => none
  | some (.failure err, w1) => some (.failure err, w1)
  | some (.value server, w1) =>
    let dest := server.PublicAddress.IP ++ ":22"
    match WaitForTcpPortOpen dest w1 with
    | none => none
    | some (some err, w2) => some (.failure err, w2)
    | some (none, w2) => some (.value server, w2)

/-! ## Launching ssh -/

/-- The function `serverExec` of `exec.go`: the child process is `ssh` with the
vector of `NewSshExecCmd` for a forced terminal, and the result is that of
`spawn.Run()`. -/
def serverExec (ctx : Context) (ipAddress : String) (command : List String) (w : World) :
    Option (Option Error × World) :=
  let execCmd := NewSshExecCmd ctx ipAddress true command
  match w.runs with
  | [] => none
  | r :: rest => some (r, { w with runs := rest, trace := w.trace ++ [Event.run "ssh" execCmd] })

/-- Modelled from the spec: the parts of `Command` that `exec.go` calls and
does not define.  `GetServer` is the server-identifier resolver (a token is
mapped to a canonical identifier, and a token that cannot be resolved is fatal:
`none`); `usageExits` says whether printing the full help ends the process,
which the spec leaves open (execution continues or short-circuits). -/
structure Command where
  GetServer : String → Option String
  usageExits : Bool

/-- Modelled from the spec: `PrintUsage`, absent from `exec.go`, prints the
help text; the flag returned says whether the process ends there. -/
def PrintUsage (cmd : Command) (w : World) : Bool × World :=
  (cmd.usageExits, { w with trace := w.trace ++ [Event.printUsage] })

/-- Modelled from the spec: `PrintShortUsage`, absent from `exec.go`, prints
the short usage message and the process exits without attempting any network
operation. -/
def PrintShortUsage (_cmd : Command) (w : World) : Exit × World :=
  (Exit.exited none, { w with trace := w.trace ++ [Event.printShortUsage] })

/-- The part of `runExec` from `cmd.GetServer(args[0])` on. -/
def runExecBody (ctx : Context) (cmd : Command) (execW : Bool) (args : List String)
    (w : World) : Option (Exit × World) :=
  match args with
  | [] => some (Exit.panicked, w)
  | arg0 :: command =>
    let w := { w with trace := w.trace ++ [Event.resolve arg0] }
    match cmd.GetServer arg0 with
    | none => some (Exit.exited none, w)
    | some serverId =>
      let fetched :=
        if execW then WaitForServerReady serverId w else apiGetServer serverId w
      match fetched with
      | none => none
      | some (.failure _, w) => some (Exit.exited (some 1), w)
      | some (.value server, w) =>
        match serverExec ctx server.PublicAddress.IP command w with
        | none => none
        | some (some _, w) => some (Exit.exited (some 1), w)
        | some (none, w) => some (Exit.returned, w)

/-- The function `runExec` of `exec.go`, with the flags `execHelp` and `execW`
passed in. -/
def runExec (ctx : Context) (cmd : Command) (execHelp execW : Bool) (args : List String)
    (w : World) : Option (Exit × World) :=
  let afterHelp : Bool × World := if execHelp then PrintUsage cmd w else (false, w)
  if afterHelp.1 then some (Exit.exited none, afterHelp.2)
  else if args.length < 2 then some (PrintShortUsage cmd afterHelp.2)
  else runExecBody ctx cmd execW args afterHelp.2

/-- Whether an event is a network call or a process launch. -/
def Event.isExternal : Event → Bool
  | .resolve _ => true
  | .getServer _ => true
  | .dial _ _ => true
  | .close _ => true
  | .run _ _ => true
  | _ => false

/-- The number of `GetServer` calls in a trace. -/
def fetches (trace : List Event) : Nat :=
  (trace.filter fun e => match e with | .getServer _ => true | _ => false).length

/-- The number of sleeps in a trace. -/
def sleeps (trace : List Event) : Nat :=
  (trace.filter fun e => match e with | .sleep _ => true | _ => false).length

/-- The number of dial attempts in a trace. -/
def dialAttempts (trace : List Event) : Nat :=
  (trace.filter fun e => match e with | .dial _ _ => true | _ => false).length

/-- The trace of `n` unsuccessful rounds of a polling loop whose attempt is the
event `e`: the attempt, then a sleep of one second. -/
def retries (e : Event) : Nat → List Event
  | 0 => []
  | n + 1 => e :: Event.sleep 1 :: retries e n

/-- A server record with the given state and public address. -/
def serverWith (state ip : String) : ScalewayServer :=
  { Identifier := "srv1", State := state, PublicAddress := { IP := ip } }

/-- The characters that `Quote` copies or backslash-escapes and that a shell
keeps as they are inside double quotes. -/
def shellSafe (t : Char → Bool) (c : Char) : Prop :=
  IsPrint t c = true ∧ c ≠ '$' ∧ c ≠ shBackquote

instance (t : Char → Bool) (c : Char) : Decidable (shellSafe t c) := by
  unfold shellSafe
  infer_instance

/-- The host-key options and the flag that introduces them. -/
def hostKeyWords : List String :=
  ["-o", "UserKnownHostsFile=/dev/null", "StrictHostKeyChecking=no"]

/-- A world in which the server is reported `starting` and then `running` at
10.0.0.5, the first dial is refused and the second succeeds. -/
def startingWorld : World :=
  { servers := [Result.value (serverWith "starting" "10.0.0.5"),
      Result.value (serverWith "running" "10.0.0.5")],
    dials := [DialOutcome.refused "connection refused", DialOutcome.connected],
    runs := [none], trace := [] }

/-- A world in which the first fetch fails. -/
def failingWorld : World :=
  { servers := [Result.failure "boom"], dials := [DialOutcome.connected], runs := [none],
    trace := [] }

/-- The exit of `runExec` after `serverExec` returned `r`. -/
def exitAfterRun (r : Option Error) : Exit :=
  match r with
  | none => Exit.returned
  | some _ => Exit.exited (some 1)

/-- The events of the help step: the full usage when `-h` was given. -/
def helpEvents (execHelp : Bool) : List Event :=
  if execHelp then [Event.printUsage] else []

/-- A command whose resolver maps `srv1` to `srv1-id` and whose help printing
ends the process. -/
def sampleCommand : Command :=
  { GetServer := fun token => if token = "srv1" then some "srv1-id" else none,
    usageExits := true }

/-! ## The argument vector: properties -/

theorem Quote_data (t : Char → Bool) (s : String) :
    (Quote t s).data = '"' :: (escapedRunes t '"' s.data ++ ['"']) := rfl

theorem Quote_ne_of_head (t : Char → Bool) (s x : String)
    (hx : x.data.head? ≠ some '"') : Quote t s ≠ x := by
  intro h
  apply hx
  rw [← h, Quote_data]
  rfl

/-- The vector of `NewSshExecCmd` as one concatenation. -/
theorem NewSshExecCmd_unfold (ctx : Context) (ip : String) (allocateTTY : Bool)
    (cmd : List String) :
    NewSshExecCmd ctx ip allocateTTY cmd =
      (if ctx.Getenv "DEBUG" ≠ "1" then ["-q"] else []) ++
      (if ctx.Getenv "exec_secure" ≠ "1" then
        ["-o", "UserKnownHostsFile=/dev/null", "-o", "StrictHostKeyChecking=no"] else []) ++
      ["-l", "root", ip] ++
      (if allocateTTY = true then ["-t"] else []) ++
      ["--", "/bin/sh", "-e"] ++
      (if ctx.Getenv "DEBUG" = "1" then ["-x"] else []) ++
      ["-c"] ++
      [Quote ctx.isPrintWide (Join cmd " ")] := by
  unfold NewSshExecCmd
  by_cases hd : ctx.Getenv "DEBUG" = "1" <;>
    by_cases hs : ctx.Getenv "exec_secure" = "1" <;>
    cases allocateTTY <;> simp [hd, hs]

/-- C1: for every address, terminal flag, command and environment, the vector
of `NewSshExecCmd` is the concatenation of the quiet flag unless `DEBUG` is
`1`, the two host-key options unless `exec_secure` is `1`, the login and the
address, the terminal flag when requested, the separator with the shell and
`-e`, the trace flag when `DEBUG` is `1`, `-c`, and the quoted join of the
command. -/
theorem NewSshExecCmd_eq_concat (ctx : Context) (ip : String) (allocateTTY : Bool)
    (cmd : List String) :
    NewSshExecCmd ctx ip allocateTTY cmd =
      (if ctx.Getenv "DEBUG" ≠ "1" then ["-q"] else []) ++
      (if ctx.Getenv "exec_secure" ≠ "1" then
        ["-o", "UserKnownHostsFile=/dev/null", "-o", "StrictHostKeyChecking=no"] else []) ++
      ["-l", "root", ip] ++
      (if allocateTTY = true then ["-t"] else []) ++
      ["--", "/bin/sh", "-e"] ++
      (if ctx.Getenv "DEBUG" = "1" then ["-x"] else []) ++
      ["-c"] ++
      [Quote ctx.isPrintWide (Join cmd " ")] :=
  NewSshExecCmd_unfold ctx ip allocateTTY cmd

theorem NewSshExecCmd_getLast (ctx : Context) (ip : String) (allocateTTY : Bool)
    (cmd : List String) :
    (NewSshExecCmd ctx ip allocateTTY cmd).getLast? =
      some (Quote ctx.isPrintWide (Join cmd " ")) := by
  rw [NewSshExecCmd_unfold]
  exact List.getLast?_concat _

/-! ## Quoting and the shell -/

theorem shScan_double_escaped (t : Char → Bool) (cs : List Char)
    (hcs : ∀ c ∈ cs, shellSafe t c) (w : List Char) (acc : List String) (rest : List Char) :
    shScan .double (some w) acc (escapedRunes t '"' cs ++ rest) =
      shScan .double (some (w ++ cs)) acc rest := by
  induction cs generalizing w with
  | nil => simp [escapedRunes]
  | cons c cs ih =>
    have hc := hcs c (List.mem_cons_self c cs)
    have hrest : ∀ d ∈ cs, shellSafe t d := fun d hd => hcs d (List.mem_cons_of_mem c hd)
    obtain ⟨hp, hdollar, hbq⟩ := hc
    by_cases hq : c = '"' ∨ c = '\\'
    · have hesc : escapedRune t c '"' = ['\\', c] := by simp [escapedRune, hq]
      have hstep : shScan .double (some w) acc ('\\' :: c :: (escapedRunes t '"' cs ++ rest)) =
          shScan .double (some (w ++ [c])) acc (escapedRunes t '"' cs ++ rest) := by
        rw [shScan]
        simp only [show ('\\' : Char) ≠ '"' by decide, if_false, if_true]
        rw [shScan]
        have : c = '$' ∨ c = shBackquote ∨ c = '"' ∨ c = '\\' := Or.inr (Or.inr hq)
        simp [this, shPut]
      simp only [escapedRunes, hesc, List.cons_append, List.nil_append]
      rw [hstep, ih hrest]
      simp
    · have hesc : escapedRune t c '"' = [c] := by simp [escapedRune, hq, hp]
      have hq1 : c ≠ '"' := fun h => hq (Or.inl h)
      have hq2 : c ≠ '\\' := fun h => hq (Or.inr h)
      have hstep : shScan .double (some w) acc (c :: (escapedRunes t '"' cs ++ rest)) =
          shScan .double (some (w ++ [c])) acc (escapedRunes t '"' cs ++ rest) := by
        rw [shScan]
        simp [hq1, hq2, hdollar, hbq, shPut]
      simp only [escapedRunes, hesc, List.cons_append, List.nil_append]
      rw [hstep, ih hrest]
      simp

theorem posixWords_Quote (t : Char → Bool) (s : String)
    (hs : ∀ c ∈ s.data, shellSafe t c) : posixWords (Quote t s) = some [s] := by
  unfold posixWords
  rw [Quote_data, shScan]
  simp only [show ¬ (('"' : Char) = ' ' ∨ ('"' : Char) = '\t') by decide,
    show ('"' : Char) ≠ '\\' by decide, show ('"' : Char) ≠ shSingleQuote by decide,
    if_false, if_true]
  rw [shScan_double_escaped t s.data hs, shScan]
  simp only [if_true]
  rw [shScan]
  simp [shFlush]

/-- C2, as amended: for every command the last element of the vector is the Go
quotation of the command tokens joined by single spaces; and when every
character of the joined string is printable and is neither a dollar sign nor a
backquote, a POSIX shell reads that element back as one word, the joined
string. -/
theorem NewSshExecCmd_last_reads_back (ctx : Context) (ip : String) (allocateTTY : Bool)
    (cmd : List String) :
    (NewSshExecCmd ctx ip allocateTTY cmd).getLast? =
        some (Quote ctx.isPrintWide (Join cmd " ")) ∧
      ((∀ c ∈ (Join cmd " ").data, shellSafe ctx.isPrintWide c) →
        posixWords (Quote ctx.isPrintWide (Join cmd " ")) = some [Join cmd " "]) :=
  ⟨NewSshExecCmd_getLast ctx ip allocateTTY cmd,
    fun hsafe => posixWords_Quote ctx.isPrintWide (Join cmd " ") hsafe⟩

/-- The amended C2 at the command `echo a"b\c`, whose characters are all safe,
and at the command `echo` with an argument holding a tab, where only the first
part applies. -/
theorem NewSshExecCmd_last_reads_back_witness :
    ((∀ c ∈ (Join ["echo", "a\"b\\c"] " ").data, shellSafe (ctxOf "" "").isPrintWide c) ∧
      (NewSshExecCmd (ctxOf "" "") "10.0.0.5" true ["echo", "a\"b\\c"]).getLast? =
        some (Quote (ctxOf "" "").isPrintWide (Join ["echo", "a\"b\\c"] " ")) ∧
      posixWords (Quote (ctxOf "" "").isPrintWide (Join ["echo", "a\"b\\c"] " ")) =
        some [Join ["echo", "a\"b\\c"] " "]) ∧
    (NewSshExecCmd (ctxOf "" "") "10.0.0.5" true ["echo", "a\tb"]).getLast? =
      some (Quote (ctxOf "" "").isPrintWide (Join ["echo", "a\tb"] " ")) :=
  ⟨⟨by decide,
      (NewSshExecCmd_last_reads_back (ctxOf "" "") "10.0.0.5" true ["echo", "a\"b\\c"]).1,
      (NewSshExecCmd_last_reads_back (ctxOf "" "") "10.0.0.5" true ["echo", "a\"b\\c"]).2
        (by decide)⟩,
    (NewSshExecCmd_last_reads_back (ctxOf "" "") "10.0.0.5" true ["echo", "a\tb"]).1⟩

/-- C2 fails as stated: for the command `echo` with one argument that holds a
tab, the last element of the vector is `"echo a\tb"` with a backslash and a
`t`; a POSIX shell reads it as the one word `echo a\tb`, which is neither the
token sequence nor the joined string, and reading that word once more gives
`echo` and `atb`. -/
theorem NewSshExecCmd_last_tab_counterexample :
    (NewSshExecCmd (ctxOf "" "") "10.0.0.5" true ["echo", "a\tb"]).getLast? =
        some "\"echo a\\tb\"" ∧
      posixWords "\"echo a\\tb\"" = some ["echo a\\tb"] ∧
      posixWords "\"echo a\\tb\"" ≠ some ["echo", "a\tb"] ∧
      posixWords "\"echo a\\tb\"" ≠ some [Join ["echo", "a\tb"] " "] ∧
      posixWords "echo a\\tb" = some ["echo", "atb"] := by
  decide

/-! ## The environment toggles -/

/-- The vector split around the login and the address, in both settings of
`exec_secure`. -/
theorem NewSshExecCmd_hostkey_split (ctx : Context) (ip : String) (allocateTTY : Bool)
    (cmd : List String) :
    (ctx.Getenv "exec_secure" = "1" →
      ∃ front back, NewSshExecCmd ctx ip allocateTTY cmd = front ++ ["-l", "root", ip] ++ back ∧
        (front = [] ∨ front = ["-q"]) ∧ ∀ x ∈ front ++ back, x ∉ hostKeyWords) ∧
    (ctx.Getenv "exec_secure" ≠ "1" →
      ∃ front back, NewSshExecCmd ctx ip allocateTTY cmd =
          front ++ ["-o", "UserKnownHostsFile=/dev/null", "-o", "StrictHostKeyChecking=no"] ++
            ["-l", "root", ip] ++ back ∧
        (front = [] ∨ front = ["-q"]) ∧ ∀ x ∈ front ++ back, x ∉ hostKeyWords) := by
  have hq : ∀ x ∈ hostKeyWords, Quote ctx.isPrintWide (Join cmd " ") ≠ x := by
    intro x hx
    apply Quote_ne_of_head
    simp only [hostKeyWords, List.mem_cons, List.mem_singleton, List.not_mem_nil, or_false] at hx
    rcases hx with rfl | rfl | rfl <;> decide
  have hback : ∀ x ∈ (if allocateTTY = true then ["-t"] else []) ++ ["--", "/bin/sh", "-e"] ++
      (if ctx.Getenv "DEBUG" = "1" then ["-x"] else []) ++ ["-c"] ++
      [Quote ctx.isPrintWide (Join cmd " ")], x ∉ hostKeyWords := by
    intro x hx hmem
    simp only [List.mem_append, List.mem_cons, List.mem_singleton, List.not_mem_nil,
      or_false] at hx
    rcases hx with (((h | h) | h) | h) | h
    · split at h
      · simp only [List.mem_singleton] at h
        subst h
        revert hmem
        decide
      · simp at h
    · rcases h with rfl | rfl | rfl <;> revert hmem <;> decide
    · split at h
      · simp only [List.mem_singleton] at h
        subst h
        revert hmem
        decide
      · simp at h
    · subst h
      revert hmem
      decide
    · subst h
      exact hq _ hmem rfl
  have hfront : ∀ x ∈ (if ctx.Getenv "DEBUG" ≠ "1" then ["-q"] else []), x ∉ hostKeyWords := by
    intro x hx
    split at hx
    · simp only [List.mem_singleton] at hx
      subst hx
      decide
    · simp at hx
  have hshape : (if ctx.Getenv "DEBUG" ≠ "1" then ["-q"] else []) = [] ∨
      (if ctx.Getenv "DEBUG" ≠ "1" then ["-q"] else []) = ["-q"] := by
    split
    · exact Or.inr rfl
    · exact Or.inl rfl
  constructor
  · intro hs
    refine ⟨if ctx.Getenv "DEBUG" ≠ "1" then ["-q"] else [],
      (if allocateTTY = true then ["-t"] else []) ++ ["--", "/bin/sh", "-e"] ++
        (if ctx.Getenv "DEBUG" = "1" then ["-x"] else []) ++ ["-c"] ++
        [Quote ctx.isPrintWide (Join cmd " ")], ?_, hshape, ?_⟩
    · rw [NewSshExecCmd_unfold]
      simp [hs]
    · intro x hx
      rcases List.mem_append.mp hx with h | h
      · exact hfront x h
      · exact hback x h
  · intro hs
    refine ⟨if ctx.Getenv "DEBUG" ≠ "1" then ["-q"] else [],
      (if allocateTTY = true then ["-t"] else []) ++ ["--", "/bin/sh", "-e"] ++
        (if ctx.Getenv "DEBUG" = "1" then ["-x"] else []) ++ ["-c"] ++
        [Quote ctx.isPrintWide (Join cmd " ")], ?_, hshape, ?_⟩
    · rw [NewSshExecCmd_unfold]
      simp [hs]
    · intro x hx
      rcases List.mem_append.mp hx with h | h
      · exact hfront x h
      · exact hback x h

/-- C3: for an address that is not itself `-o` or one of the two host-key
options: when `exec_secure` is `1` the vector holds neither
`UserKnownHostsFile=/dev/null` nor `StrictHostKeyChecking=no` nor `-o`; when it
is not `1`, the four elements `-o`, `UserKnownHostsFile=/dev/null`, `-o`,
`StrictHostKeyChecking=no` stand as one block that is preceded by at most `-q`
and followed at once by `-l`, `root` and the address.  For every address
whatsoever, the elements around `-l`, `root`, address hold none of the three
strings when `exec_secure` is `1`. -/
theorem NewSshExecCmd_hostkey_options (ctx : Context) (ip : String) (allocateTTY : Bool)
    (cmd : List String) :
    (ctx.Getenv "exec_secure" = "1" →
      (ip ∉ hostKeyWords →
        "-o" ∉ NewSshExecCmd ctx ip allocateTTY cmd ∧
        "UserKnownHostsFile=/dev/null" ∉ NewSshExecCmd ctx ip allocateTTY cmd ∧
        "StrictHostKeyChecking=no" ∉ NewSshExecCmd ctx ip allocateTTY cmd) ∧
      ∃ front back, NewSshExecCmd ctx ip allocateTTY cmd = front ++ ["-l", "root", ip] ++ back ∧
        (front = [] ∨ front = ["-q"]) ∧ ∀ x ∈ front ++ back, x ∉ hostKeyWords) ∧
    (ctx.Getenv "exec_secure" ≠ "1" →
      ∃ front back, NewSshExecCmd ctx ip allocateTTY cmd =
          front ++ ["-o", "UserKnownHostsFile=/dev/null", "-o", "StrictHostKeyChecking=no"] ++
            ["-l", "root", ip] ++ back ∧
        (front = [] ∨ front = ["-q"]) ∧ ∀ x ∈ front ++ back, x ∉ hostKeyWords) := by
  refine ⟨fun hs => ⟨?_, (NewSshExecCmd_hostkey_split ctx ip allocateTTY cmd).1 hs⟩,
    (NewSshExecCmd_hostkey_split ctx ip allocateTTY cmd).2⟩
  intro hip
  obtain ⟨front, back, hv, _, hnone⟩ := (NewSshExecCmd_hostkey_split ctx ip allocateTTY cmd).1 hs
  have hall : ∀ x ∈ hostKeyWords, x ∉ NewSshExecCmd ctx ip allocateTTY cmd := by
    intro x hx hmem
    rw [hv] at hmem
    simp only [List.mem_append, List.mem_cons, List.mem_singleton, List.not_mem_nil,
      or_false] at hmem
    rcases hmem with (h | h) | h
    · exact hnone x (List.mem_append.mpr (Or.inl h)) hx
    · rcases h with rfl | rfl | rfl
      · revert hx
        decide
      · revert hx
        decide
      · exact hip hx
    · exact hnone x (List.mem_append.mpr (Or.inr h)) hx
  exact ⟨hall _ (by decide), hall _ (by decide), hall _ (by decide)⟩

/-- C3 at `exec_secure=1` and at an empty environment, for the address
10.0.0.5. -/
theorem NewSshExecCmd_hostkey_options_witness :
    ((ctxOf "" "1").Getenv "exec_secure" = "1" ∧ "10.0.0.5" ∉ hostKeyWords ∧
      "-o" ∉ NewSshExecCmd (ctxOf "" "1") "10.0.0.5" true ["ls"] ∧
      "UserKnownHostsFile=/dev/null" ∉ NewSshExecCmd (ctxOf "" "1") "10.0.0.5" true ["ls"] ∧
      "StrictHostKeyChecking=no" ∉ NewSshExecCmd (ctxOf "" "1") "10.0.0.5" true ["ls"]) ∧
    ((ctxOf "" "").Getenv "exec_secure" ≠ "1" ∧
      ∃ front back, NewSshExecCmd (ctxOf "" "") "10.0.0.5" true ["ls"] =
          front ++ ["-o", "UserKnownHostsFile=/dev/null", "-o", "StrictHostKeyChecking=no"] ++
            ["-l", "root", "10.0.0.5"] ++ back ∧
        (front = [] ∨ front = ["-q"]) ∧ ∀ x ∈ front ++ back, x ∉ hostKeyWords) :=
  ⟨⟨by decide, by decide,
      ((NewSshExecCmd_hostkey_options (ctxOf "" "1") "10.0.0.5" true ["ls"]).1 (by decide)).1
        (by decide)⟩,
    ⟨by decide,
      (NewSshExecCmd_hostkey_options (ctxOf "" "") "10.0.0.5" true ["ls"]).2 (by decide)⟩⟩

/-- C4: the vector splits into the options before the address, the address,
the options after it and the quoted command.  When `DEBUG` is `1` neither
option part holds `-q` and the options after the address end in `-e`, `-x`,
`-c`; when `DEBUG` is not `1` the first element is `-q` and neither option part
holds `-x`. -/
theorem NewSshExecCmd_debug_flags (ctx : Context) (ip : String) (allocateTTY : Bool)
    (cmd : List String) :
    (ctx.Getenv "DEBUG" = "1" →
      ∃ front mid, NewSshExecCmd ctx ip allocateTTY cmd =
          front ++ ["-l", "root"] ++ [ip] ++ mid ++ ["-e", "-x", "-c"] ++
            [Quote ctx.isPrintWide (Join cmd " ")] ∧
        "-q" ∉ front ++ ["-l", "root"] ++ mid ++ ["-e", "-x", "-c"] ∧
        "-x" ∈ front ++ ["-l", "root"] ++ mid ++ ["-e", "-x", "-c"] ∧
        "-x" ∉ front ++ ["-l", "root"] ++ mid) ∧
    (ctx.Getenv "DEBUG" ≠ "1" →
      ∃ front mid, NewSshExecCmd ctx ip allocateTTY cmd =
          "-q" :: front ++ ["-l", "root"] ++ [ip] ++ mid ++
            [Quote ctx.isPrintWide (Join cmd " ")] ∧
        "-x" ∉ "-q" :: front ++ ["-l", "root"] ++ mid) := by
  constructor
  · intro hd
    refine ⟨if ctx.Getenv "exec_secure" ≠ "1" then
        ["-o", "UserKnownHostsFile=/dev/null", "-o", "StrictHostKeyChecking=no"] else [],
      (if allocateTTY = true then ["-t"] else []) ++ ["--", "/bin/sh"], ?_, ?_, ?_, ?_⟩
    · rw [NewSshExecCmd_unfold]
      simp [hd]
    · by_cases hs : ctx.Getenv "exec_secure" = "1" <;> cases allocateTTY <;>
        simp [hs]
    · simp
    · by_cases hs : ctx.Getenv "exec_secure" = "1" <;> cases allocateTTY <;>
        simp [hs]
  · intro hd
    refine ⟨if ctx.Getenv "exec_secure" ≠ "1" then
        ["-o", "UserKnownHostsFile=/dev/null", "-o", "StrictHostKeyChecking=no"] else [],
      (if allocateTTY = true then ["-t"] else []) ++ ["--", "/bin/sh", "-e", "-c"], ?_, ?_⟩
    · rw [NewSshExecCmd_unfold]
      simp [hd]
    · by_cases hs : ctx.Getenv "exec_secure" = "1" <;> cases allocateTTY <;>
        simp [hs]

/-- C4 at `DEBUG=1` and at an empty environment. -/
theorem NewSshExecCmd_debug_flags_witness :
    ((ctxOf "1" "").Getenv "DEBUG" = "1" ∧
      ∃ front mid, NewSshExecCmd (ctxOf "1" "") "10.0.0.5" true ["ls"] =
          front ++ ["-l", "root"] ++ ["10.0.0.5"] ++ mid ++ ["-e", "-x", "-c"] ++
            [Quote (ctxOf "1" "").isPrintWide (Join ["ls"] " ")] ∧
        "-q" ∉ front ++ ["-l", "root"] ++ mid ++ ["-e", "-x", "-c"] ∧
        "-x" ∈ front ++ ["-l", "root"] ++ mid ++ ["-e", "-x", "-c"] ∧
        "-x" ∉ front ++ ["-l", "root"] ++ mid) ∧
    ((ctxOf "" "").Getenv "DEBUG" ≠ "1" ∧
      ∃ front mid, NewSshExecCmd (ctxOf "" "") "10.0.0.5" true ["ls"] =
          "-q" :: front ++ ["-l", "root"] ++ ["10.0.0.5"] ++ mid ++
            [Quote (ctxOf "" "").isPrintWide (Join ["ls"] " ")] ∧
        "-x" ∉ "-q" :: front ++ ["-l", "root"] ++ mid) :=
  ⟨⟨by decide, (NewSshExecCmd_debug_flags (ctxOf "1" "") "10.0.0.5" true ["ls"]).1 (by decide)⟩,
    ⟨by decide, (NewSshExecCmd_debug_flags (ctxOf "" "") "10.0.0.5" true ["ls"]).2 (by decide)⟩⟩

/-! ## The polling loops -/

theorem fetches_append (a b : List Event) : fetches (a ++ b) = fetches a + fetches b := by
  simp [fetches, List.filter_append]

theorem sleeps_append (a b : List Event) : sleeps (a ++ b) = sleeps a + sleeps b := by
  simp [sleeps, List.filter_append]

theorem dialAttempts_append (a b : List Event) :
    dialAttempts (a ++ b) = dialAttempts a + dialAttempts b := by
  simp [dialAttempts, List.filter_append]

theorem sleeps_retries (e : Event) (he : sleeps [e] = 0) (n : Nat) : sleeps (retries e n) = n := by
  induction n with
  | zero => rfl
  | succ n ih =>
    have h : retries e (n + 1) = [e] ++ ([Event.sleep 1] ++ retries e n) := rfl
    rw [h, sleeps_append, sleeps_append, he, ih]
    simp [sleeps]
    omega

theorem fetches_retries (serverId : String) (n : Nat) :
    fetches (retries (Event.getServer serverId) n) = n := by
  induction n with
  | zero => rfl
  | succ n ih =>
    have h : retries (Event.getServer serverId) (n + 1) =
        [Event.getServer serverId, Event.sleep 1] ++ retries (Event.getServer serverId) n := rfl
    rw [h, fetches_append, ih]
    simp [fetches]
    omega

theorem dialAttempts_retries (dest : String) (n : Nat) :
    dialAttempts (retries (Event.dial "tcp" dest) n) = n := by
  induction n with
  | zero => rfl
  | succ n ih =>
    have h : retries (Event.dial "tcp" dest) (n + 1) =
        [Event.dial "tcp" dest, Event.sleep 1] ++ retries (Event.dial "tcp" dest) n := rfl
    rw [h, dialAttempts_append, ih]
    simp [dialAttempts]
    omega

theorem WaitForServerStateLoop_skip (serverId targetState : String)
    (before : List ScalewayServer) (hbefore : ∀ s ∈ before, s.State ≠ targetState)
    (rest : List (Result ScalewayServer)) (trace : List Event) :
    WaitForServerStateLoop serverId targetState (before.map Result.value ++ rest) trace =
      WaitForServerStateLoop serverId targetState rest
        (trace ++ retries (Event.getServer serverId) before.length) := by
  induction before generalizing trace with
  | nil => simp [retries]
  | cons s before ih =>
    have hs : s.State ≠ targetState := hbefore s (List.mem_cons_self s before)
    have hrest : ∀ x ∈ before, x.State ≠ targetState :=
      fun x hx => hbefore x (List.mem_cons_of_mem s hx)
    simp only [List.map_cons, List.cons_append, WaitForServerStateLoop, hs, if_false,
      List.length_cons, retries, List.append_eq]
    rw [ih hrest]
    simp

theorem WaitForServerStateLoop_state (serverId targetState : String)
    (resps : List (Result ScalewayServer)) :
    ∀ (trace : List Event) (r : ScalewayServer) (rest : List (Result ScalewayServer))
      (trace1 : List Event),
      WaitForServerStateLoop serverId targetState resps trace = some (Result.value r, rest, trace1) →
        r.State = targetState := by
  induction resps with
  | nil => intro trace r rest trace1 h; simp [WaitForServerStateLoop] at h
  | cons resp resps ih =>
    intro trace r rest trace1 h
    cases resp with
    | failure err => simp [WaitForServerStateLoop] at h
    | value server =>
      by_cases hs : server.State = targetState
      · simp only [WaitForServerStateLoop, hs, if_true, Option.some.injEq, Prod.mk.injEq,
          Result.value.injEq] at h
        rw [← h.1]
        exact hs
      · simp only [WaitForServerStateLoop, hs, if_false] at h
        exact ih _ r rest trace1 h

theorem WaitForServerStateLoop_no_dial (serverId targetState : String)
    (resps : List (Result ScalewayServer)) :
    ∀ (trace : List Event) (r : Result ScalewayServer) (rest : List (Result ScalewayServer))
      (trace1 : List Event),
      WaitForServerStateLoop serverId targetState resps trace = some (r, rest, trace1) →
        dialAttempts trace1 = dialAttempts trace := by
  induction resps with
  | nil => intro trace r rest trace1 h; simp [WaitForServerStateLoop] at h
  | cons resp resps ih =>
    intro trace r rest trace1 h
    cases resp with
    | failure err =>
      simp only [WaitForServerStateLoop, Option.some.injEq, Prod.mk.injEq] at h
      rw [← h.2.2, dialAttempts_append]
      simp [dialAttempts]
    | value server =>
      by_cases hs : server.State = targetState
      · simp only [WaitForServerStateLoop, hs, if_true, Option.some.injEq, Prod.mk.injEq] at h
        rw [← h.2.2, dialAttempts_append]
        simp [dialAttempts]
      · simp only [WaitForServerStateLoop, hs, if_false] at h
        rw [ih _ r rest trace1 h, dialAttempts_append, dialAttempts_append]
        simp [dialAttempts]

theorem WaitForTcpPortOpenLoop_skip (dest : String) (errs : List Error)
    (rest : List DialOutcome) (trace : List Event) :
    WaitForTcpPortOpenLoop dest (errs.map DialOutcome.refused ++ rest) trace =
      WaitForTcpPortOpenLoop dest rest (trace ++ retries (Event.dial "tcp" dest) errs.length) := by
  induction errs generalizing trace with
  | nil => simp [retries]
  | cons e errs ih =>
    simp only [List.map_cons, List.cons_append, WaitForTcpPortOpenLoop, List.length_cons, retries,
      List.append_eq]
    rw [ih]
    simp

theorem WaitForTcpPortOpenLoop_returns (dest : String) (outcomes : List DialOutcome) :
    ∀ (trace : List Event) (rest : List DialOutcome) (trace1 : List Event),
      WaitForTcpPortOpenLoop dest outcomes trace = some (rest, trace1) →
        (∃ errs : List Error,
          outcomes = errs.map DialOutcome.refused ++ DialOutcome.connected :: rest) ∧
        fetches trace1 = fetches trace := by
  induction outcomes with
  | nil => intro trace rest trace1 h; simp [WaitForTcpPortOpenLoop] at h
  | cons o outcomes ih =>
    intro trace rest trace1 h
    cases o with
    | connected =>
      simp only [WaitForTcpPortOpenLoop, Option.some.injEq, Prod.mk.injEq] at h
      refine ⟨⟨[], ?_⟩, ?_⟩
      · simp [h.1]
      · rw [← h.2, fetches_append]
        simp [fetches]
    | refused e =>
      simp only [WaitForTcpPortOpenLoop] at h
      obtain ⟨⟨errs, herrs⟩, hf⟩ := ih _ rest trace1 h
      refine ⟨⟨e :: errs, ?_⟩, ?_⟩
      · simp [herrs]
      · rw [hf, fetches_append, fetches_append]
        simp [fetches]

theorem WaitForServerState_found (serverId targetState : String)
    (before : List ScalewayServer) (server : ScalewayServer)
    (later : List (Result ScalewayServer)) (dials : List DialOutcome)
    (runs : List (Option Error)) (trace : List Event)
    (hbefore : ∀ s ∈ before, s.State ≠ targetState) (hserver : server.State = targetState) :
    WaitForServerState serverId targetState
        { servers := before.map Result.value ++ Result.value server :: later,
          dials := dials, runs := runs, trace := trace } =
      some (Result.value server,
        { servers := later, dials := dials, runs := runs,
          trace := trace ++ retries (Event.getServer serverId) before.length ++
            [Event.getServer serverId] }) := by
  simp only [WaitForServerState]
  rw [WaitForServerStateLoop_skip serverId targetState before hbefore]
  simp [WaitForServerStateLoop, hserver]

theorem WaitForServerState_value_state (serverId targetState : String) (w : World)
    (r : ScalewayServer) (w1 : World)
    (h : WaitForServerState serverId targetState w = some (Result.value r, w1)) :
    r.State = targetState := by
  simp only [WaitForServerState] at h
  split at h
  · simp at h
  · rename_i r0 servers trace1 heq
    simp only [Option.some.injEq, Prod.mk.injEq] at h
    rw [h.1] at heq
    exact WaitForServerStateLoop_state serverId targetState w.servers w.trace r servers trace1 heq

theorem WaitForTcpPortOpen_opened (dest : String) (errs : List Error)
    (later : List DialOutcome) (servers : List (Result ScalewayServer))
    (runs : List (Option Error)) (trace : List Event) :
    WaitForTcpPortOpen dest
        { servers := servers, dials := errs.map DialOutcome.refused ++ DialOutcome.connected :: later,
          runs := runs, trace := trace } =
      some (none,
        { servers := servers, dials := later, runs := runs,
          trace := trace ++ retries (Event.dial "tcp" dest) errs.length ++
            [Event.dial "tcp" dest] ++ [Event.close dest] }) := by
  simp only [WaitForTcpPortOpen]
  rw [WaitForTcpPortOpenLoop_skip]
  simp [WaitForTcpPortOpenLoop]

/-- C5: when the first `k-1` responses are records in another state and the
`k`-th is a record in the target state, `WaitForServerState` returns that
record after `k` fetches with a sleep of one second after each of the first
`k-1`, leaving the later responses unread; and whenever it returns a record,
the record is in the target state. -/
theorem WaitForServerState_polls_until_target (serverId targetState : String)
    (before : List ScalewayServer) (server : ScalewayServer)
    (later : List (Result ScalewayServer)) (dials : List DialOutcome)
    (runs : List (Option Error)) (trace : List Event)
    (hbefore : ∀ s ∈ before, s.State ≠ targetState) (hserver : server.State = targetState) :
    WaitForServerState serverId targetState
        { servers := before.map Result.value ++ Result.value server :: later,
          dials := dials, runs := runs, trace := trace } =
      some (Result.value server,
        { servers := later, dials := dials, runs := runs,
          trace := trace ++ retries (Event.getServer serverId) before.length ++
            [Event.getServer serverId] }) ∧
    fetches (retries (Event.getServer serverId) before.length ++ [Event.getServer serverId]) =
      before.length + 1 ∧
    sleeps (retries (Event.getServer serverId) before.length ++ [Event.getServer serverId]) =
      before.length ∧
    (∀ (w : World) (r : ScalewayServer) (w1 : World),
      WaitForServerState serverId targetState w = some (Result.value r, w1) →
        r.State = targetState) := by
  refine ⟨?_, ?_, ?_, ?_⟩
  · exact WaitForServerState_found serverId targetState before server later dials runs trace
      hbefore hserver
  · rw [fetches_append, fetches_retries]
    simp [fetches]
  · rw [sleeps_append, sleeps_retries _ (by simp [sleeps])]
    simp [sleeps]
  · intro w r w1 h
    exact WaitForServerState_value_state serverId targetState w r w1 h

/-- C5 at the responses `starting`, `starting`, `running` and the target
`running`: three fetches and two sleeps. -/
theorem WaitForServerState_polls_until_target_witness :
    WaitForServerState "srv1" "running"
        { servers := [serverWith "starting" "10.0.0.5", serverWith "starting" "10.0.0.5"].map
            Result.value ++ Result.value (serverWith "running" "10.0.0.5") :: [],
          dials := [], runs := [], trace := [] } =
      some (Result.value (serverWith "running" "10.0.0.5"),
        { servers := [], dials := [], runs := [],
          trace := [] ++ retries (Event.getServer "srv1") 2 ++ [Event.getServer "srv1"] }) ∧
    fetches (retries (Event.getServer "srv1") 2 ++ [Event.getServer "srv1"]) = 3 ∧
    sleeps (retries (Event.getServer "srv1") 2 ++ [Event.getServer "srv1"]) = 2 :=
  have h := WaitForServerState_polls_until_target "srv1" "running"
    [serverWith "starting" "10.0.0.5", serverWith "starting" "10.0.0.5"]
    (serverWith "running" "10.0.0.5") [] [] [] [] (by decide) (by decide)
  ⟨h.1, h.2.1, h.2.2.1⟩

/-- C6: when the first `k-1` responses are records in another state and the
`k`-th is the error `e`, `WaitForServerState` returns no record and the error
`e` right after the `k`-th fetch: the trace ends with that fetch, and the later
responses are left unread. -/
theorem WaitForServerState_fetch_error (serverId targetState : String)
    (before : List ScalewayServer) (e : Error)
    (later : List (Result ScalewayServer)) (dials : List DialOutcome)
    (runs : List (Option Error)) (trace : List Event)
    (hbefore : ∀ s ∈ before, s.State ≠ targetState) :
    WaitForServerState serverId targetState
        { servers := before.map Result.value ++ Result.failure e :: later,
          dials := dials, runs := runs, trace := trace } =
      some (Result.failure e,
        { servers := later, dials := dials, runs := runs,
          trace := trace ++ retries (Event.getServer serverId) before.length ++
            [Event.getServer serverId] }) ∧
    fetches (retries (Event.getServer serverId) before.length ++ [Event.getServer serverId]) =
      before.length + 1 ∧
    sleeps (retries (Event.getServer serverId) before.length ++ [Event.getServer serverId]) =
      before.length := by
  refine ⟨?_, ?_, ?_⟩
  · simp only [WaitForServerState]
    rw [WaitForServerStateLoop_skip serverId targetState before hbefore]
    simp [WaitForServerStateLoop]
  · rw [fetches_append, fetches_retries]
    simp [fetches]
  · rw [sleeps_append, sleeps_retries _ (by simp [sleeps])]
    simp [sleeps]

/-- C6 at the responses `starting`, then an error, then a record that is never
read. -/
theorem WaitForServerState_fetch_error_witness :
    WaitForServerState "srv1" "running"
        { servers := [serverWith "starting" "10.0.0.5"].map Result.value ++
            Result.failure "boom" :: [Result.value (serverWith "running" "10.0.0.5")],
          dials := [], runs := [], trace := [] } =
      some (Result.failure "boom",
        { servers := [Result.value (serverWith "running" "10.0.0.5")], dials := [], runs := [],
          trace := [] ++ retries (Event.getServer "srv1") 1 ++ [Event.getServer "srv1"] }) ∧
    fetches (retries (Event.getServer "srv1") 1 ++ [Event.getServer "srv1"]) = 2 ∧
    sleeps (retries (Event.getServer "srv1") 1 ++ [Event.getServer "srv1"]) = 1 :=
  WaitForServerState_fetch_error "srv1" "running" [serverWith "starting" "10.0.0.5"] "boom"
    [Result.value (serverWith "running" "10.0.0.5")] [] [] [] (by decide)

/-- C7: when the first `n` dials fail and the next one succeeds,
`WaitForTcpPortOpen` makes `n+1` dials with a sleep of one second after each
failed one, closes the connection and returns a nil error; and whenever it
returns, the error is nil and the dials it made were failures followed by one
success. -/
theorem WaitForTcpPortOpen_waits_for_success (dest : String) (errs : List Error)
    (later : List DialOutcome) (servers : List (Result ScalewayServer))
    (runs : List (Option Error)) (trace : List Event) :
    WaitForTcpPortOpen dest
        { servers := servers, dials := errs.map DialOutcome.refused ++ DialOutcome.connected :: later,
          runs := runs, trace := trace } =
      some (none,
        { servers := servers, dials := later, runs := runs,
          trace := trace ++ retries (Event.dial "tcp" dest) errs.length ++
            [Event.dial "tcp" dest] ++ [Event.close dest] }) ∧
    dialAttempts (retries (Event.dial "tcp" dest) errs.length ++
      [Event.dial "tcp" dest] ++ [Event.close dest]) = errs.length + 1 ∧
    sleeps (retries (Event.dial "tcp" dest) errs.length ++
      [Event.dial "tcp" dest] ++ [Event.close dest]) = errs.length ∧
    (∀ (w : World) (r : Option Error) (w1 : World),
      WaitForTcpPortOpen dest w = some (r, w1) →
        r = none ∧ ∃ failed : List Error,
          w.dials = failed.map DialOutcome.refused ++ DialOutcome.connected :: w1.dials) := by
  refine ⟨?_, ?_, ?_, ?_⟩
  · exact WaitForTcpPortOpen_opened dest errs later servers runs trace
  · rw [dialAttempts_append, dialAttempts_append, dialAttempts_retries]
    simp [dialAttempts]
  · rw [sleeps_append, sleeps_append, sleeps_retries _ (by simp [sleeps])]
    simp [sleeps]
  · intro w r w1 h
    simp only [WaitForTcpPortOpen] at h
    split at h
    · simp at h
    · rename_i rest trace1 heq
      simp only [Option.some.injEq, Prod.mk.injEq] at h
      obtain ⟨h1, h2⟩ := h
      refine ⟨h1.symm, ?_⟩
      obtain ⟨⟨failed, hf⟩, _⟩ := WaitForTcpPortOpenLoop_returns dest w.dials w.trace rest trace1 heq
      refine ⟨failed, ?_⟩
      rw [hf, ← h2]

/-- C7 at two refused dials followed by an accepted one: three dials, two
sleeps, one close. -/
theorem WaitForTcpPortOpen_waits_for_success_witness :
    WaitForTcpPortOpen "10.0.0.5:22"
        { servers := [],
          dials := ["refused", "refused"].map DialOutcome.refused ++ DialOutcome.connected :: [],
          runs := [], trace := [] } =
      some (none,
        { servers := [], dials := [], runs := [],
          trace := [] ++ retries (Event.dial "tcp" "10.0.0.5:22") 2 ++
            [Event.dial "tcp" "10.0.0.5:22"] ++ [Event.close "10.0.0.5:22"] }) ∧
    dialAttempts (retries (Event.dial "tcp" "10.0.0.5:22") 2 ++
      [Event.dial "tcp" "10.0.0.5:22"] ++ [Event.close "10.0.0.5:22"]) = 3 ∧
    sleeps (retries (Event.dial "tcp" "10.0.0.5:22") 2 ++
      [Event.dial "tcp" "10.0.0.5:22"] ++ [Event.close "10.0.0.5:22"]) = 2 :=
  have h := WaitForTcpPortOpen_waits_for_success "10.0.0.5:22" ["refused", "refused"] [] [] [] []
  ⟨h.1, h.2.1, h.2.2.1⟩

/-! ## The composed wait and the entry point -/

theorem WaitForServerState_no_dial (serverId targetState : String) (w : World)
    (r : Result ScalewayServer) (w1 : World)
    (h : WaitForServerState serverId targetState w = some (r, w1)) :
    w1.dials = w.dials ∧ dialAttempts w1.trace = dialAttempts w.trace := by
  simp only [WaitForServerState] at h
  split at h
  · simp at h
  · rename_i r0 servers trace1 heq
    simp only [Option.some.injEq, Prod.mk.injEq] at h
    rw [← h.2]
    exact ⟨rfl, WaitForServerStateLoop_no_dial serverId targetState w.servers w.trace r0
      servers trace1 heq⟩

theorem WaitForTcpPortOpen_no_fetch (dest : String) (w : World) (r : Option Error) (w1 : World)
    (h : WaitForTcpPortOpen dest w = some (r, w1)) :
    r = none ∧ w1.servers = w.servers ∧ fetches w1.trace = fetches w.trace := by
  simp only [WaitForTcpPortOpen] at h
  split at h
  · simp at h
  · rename_i rest trace1 heq
    simp only [Option.some.injEq, Prod.mk.injEq] at h
    obtain ⟨h1, h2⟩ := h
    refine ⟨h1.symm, ?_, ?_⟩
    · rw [← h2]
    · rw [← h2]
      simp only [fetches_append]
      rw [(WaitForTcpPortOpenLoop_returns dest w.dials w.trace rest trace1 heq).2]
      simp [fetches]

theorem WaitForServerReady_value (serverId : String) (w : World) (server : ScalewayServer)
    (w1 : World) (r : Option Error) (w2 : World)
    (h1 : WaitForServerState serverId "running" w = some (Result.value server, w1))
    (h2 : WaitForTcpPortOpen (server.PublicAddress.IP ++ ":22") w1 = some (r, w2)) :
    WaitForServerReady serverId w = some (Result.value server, w2) := by
  obtain ⟨hr, _, _⟩ := WaitForTcpPortOpen_no_fetch _ w1 r w2 h2
  subst hr
  simp [WaitForServerReady, h1, h2]

/-- C8: `WaitForServerReady` is the state wait for `running` followed by the
port wait.  When the state wait returns the error `e`, the result is no record
and `e`, in the world the state wait left, in which no dial has been made; when
it returns a record and the port wait on the record's public address followed
by `:22` returns, the result is that record, in state `running`, with a nil
error, and the port wait has fetched nothing. -/
theorem WaitForServerReady_composes (serverId : String) (w : World) :
    (∀ (e : Error) (w1 : World),
      WaitForServerState serverId "running" w = some (Result.failure e, w1) →
        WaitForServerReady serverId w = some (Result.failure e, w1) ∧
          w1.dials = w.dials ∧ dialAttempts w1.trace = dialAttempts w.trace) ∧
    (∀ (server : ScalewayServer) (w1 : World) (r : Option Error) (w2 : World),
      WaitForServerState serverId "running" w = some (Result.value server, w1) →
      WaitForTcpPortOpen (server.PublicAddress.IP ++ ":22") w1 = some (r, w2) →
        WaitForServerReady serverId w = some (Result.value server, w2) ∧
          server.State = "running" ∧ w2.servers = w1.servers ∧
          fetches w2.trace = fetches w1.trace) := by
  constructor
  · intro e w1 h
    refine ⟨?_, WaitForServerState_no_dial serverId "running" w _ w1 h⟩
    simp [WaitForServerReady, h]
  · intro server w1 r w2 h1 h2
    obtain ⟨_, hs, hf⟩ := WaitForTcpPortOpen_no_fetch _ w1 r w2 h2
    exact ⟨WaitForServerReady_value serverId w server w1 r w2 h1 h2,
      WaitForServerState_value_state serverId "running" w server w1 h1, hs, hf⟩

/-- C8 at a world where the fetch fails and at a world where the server starts,
runs and then accepts the second dial. -/
theorem WaitForServerReady_composes_witness :
    (WaitForServerReady "srv1" failingWorld =
        some (Result.failure "boom",
          { failingWorld with servers := [], trace := [Event.getServer "srv1"] }) ∧
      dialAttempts [Event.getServer "srv1"] = dialAttempts failingWorld.trace) ∧
    (WaitForServerReady "srv1" startingWorld =
        some (Result.value (serverWith "running" "10.0.0.5"),
          { servers := [], dials := [], runs := [none],
            trace := [Event.getServer "srv1", Event.sleep 1, Event.getServer "srv1",
              Event.dial "tcp" "10.0.0.5:22", Event.sleep 1, Event.dial "tcp" "10.0.0.5:22",
              Event.close "10.0.0.5:22"] }) ∧
      (serverWith "running" "10.0.0.5").State = "running") :=
  have hf := (WaitForServerReady_composes "srv1" failingWorld).1 "boom"
    { failingWorld with servers := [], trace := [Event.getServer "srv1"] } (by decide)
  have hs := (WaitForServerReady_composes "srv1" startingWorld).2
    (serverWith "running" "10.0.0.5")
    { servers := [], dials := startingWorld.dials, runs := [none],
      trace := [Event.getServer "srv1", Event.sleep 1, Event.getServer "srv1"] }
    none
    { servers := [], dials := [], runs := [none],
      trace := [Event.getServer "srv1", Event.sleep 1, Event.getServer "srv1",
        Event.dial "tcp" "10.0.0.5:22", Event.sleep 1, Event.dial "tcp" "10.0.0.5:22",
        Event.close "10.0.0.5:22"] }
    (by decide) (by decide)
  ⟨⟨hf.1, hf.2.2⟩, ⟨hs.1, hs.2.1⟩⟩

/-- C9: with `-w`, at least two arguments, the first of which resolves to a
server that is already `running` at the address `ip`, and a port 22 that
accepts a dial after finitely many refusals, `runExec` resolves the server,
fetches it once, waits for the port and launches `ssh` once, with the vector
`NewSshExecCmd(ip, true, args[1:])`; that vector holds `-l`, `root`, `ip` in a
row, holds `-t`, and ends in the quoted join of `args[1:]`.  (The help flag is
either absent or printing the help does not end the process.) -/
theorem runExec_wait_launches_ssh (ctx : Context) (cmd : Command) (execHelp : Bool)
    (arg0 c : String) (cs : List String) (serverId : String) (server : ScalewayServer)
    (later : List (Result ScalewayServer)) (errs : List Error) (laterDials : List DialOutcome)
    (r : Option Error) (rs : List (Option Error)) (trace : List Event)
    (hhelp : execHelp = true → cmd.usageExits = false)
    (hresolve : cmd.GetServer arg0 = some serverId)
    (hstate : server.State = "running") :
    runExec ctx cmd execHelp true (arg0 :: c :: cs)
        { servers := Result.value server :: later,
          dials := errs.map DialOutcome.refused ++ DialOutcome.connected :: laterDials,
          runs := r :: rs, trace := trace } =
      some (exitAfterRun r,
        { servers := later, dials := laterDials, runs := rs,
          trace := trace ++ helpEvents execHelp ++
            [Event.resolve arg0, Event.getServer serverId] ++
            retries (Event.dial "tcp" (server.PublicAddress.IP ++ ":22")) errs.length ++
            [Event.dial "tcp" (server.PublicAddress.IP ++ ":22"),
              Event.close (server.PublicAddress.IP ++ ":22"),
              Event.run "ssh" (NewSshExecCmd ctx server.PublicAddress.IP true (c :: cs))] }) ∧
    (∃ front back, NewSshExecCmd ctx server.PublicAddress.IP true (c :: cs) =
      front ++ ["-l", "root", server.PublicAddress.IP] ++ back) ∧
    "-t" ∈ NewSshExecCmd ctx server.PublicAddress.IP true (c :: cs) ∧
    (NewSshExecCmd ctx server.PublicAddress.IP true (c :: cs)).getLast? =
      some (Quote ctx.isPrintWide (Join (c :: cs) " ")) := by
  refine ⟨?_, ?_, ?_, NewSshExecCmd_getLast _ _ _ _⟩
  · have hstateWait : ∀ tr : List Event,
        WaitForServerState serverId "running"
          { servers := Result.value server :: later,
            dials := errs.map DialOutcome.refused ++ DialOutcome.connected :: laterDials,
            runs := r :: rs, trace := tr } =
        some (Result.value server,
          { servers := later,
            dials := errs.map DialOutcome.refused ++ DialOutcome.connected :: laterDials,
            runs := r :: rs, trace := tr ++ [Event.getServer serverId] }) := by
      intro tr
      have h := WaitForServerState_found serverId "running" [] server later
        (errs.map DialOutcome.refused ++ DialOutcome.connected :: laterDials) (r :: rs) tr
        (by simp) hstate
      simpa [retries] using h
    have hready : ∀ tr : List Event,
        WaitForServerReady serverId
          { servers := Result.value server :: later,
            dials := errs.map DialOutcome.refused ++ DialOutcome.connected :: laterDials,
            runs := r :: rs, trace := tr } =
        some (Result.value server,
          { servers := later, dials := laterDials, runs := r :: rs,
            trace := tr ++ [Event.getServer serverId] ++
              retries (Event.dial "tcp" (server.PublicAddress.IP ++ ":22")) errs.length ++
              [Event.dial "tcp" (server.PublicAddress.IP ++ ":22")] ++
              [Event.close (server.PublicAddress.IP ++ ":22")] }) := by
      intro tr
      have h2 := WaitForTcpPortOpen_opened (server.PublicAddress.IP ++ ":22") errs
        laterDials later (r :: rs) (tr ++ [Event.getServer serverId])
      exact WaitForServerReady_value serverId _ server _ none _ (hstateWait tr) h2
    cases execHelp with
    | false =>
      cases r <;>
        simp [runExec, runExecBody, hresolve, hready, serverExec, exitAfterRun, helpEvents]
    | true =>
      have hu : cmd.usageExits = false := hhelp rfl
      cases r <;>
        simp [runExec, runExecBody, PrintUsage, hu, hresolve, hready, serverExec, exitAfterRun,
          helpEvents]
  · rw [NewSshExecCmd_unfold]
    exact ⟨(if ctx.Getenv "DEBUG" ≠ "1" then ["-q"] else []) ++
        (if ctx.Getenv "exec_secure" ≠ "1" then
          ["-o", "UserKnownHostsFile=/dev/null", "-o", "StrictHostKeyChecking=no"] else []),
      (if true = true then ["-t"] else []) ++ ["--", "/bin/sh", "-e"] ++
        (if ctx.Getenv "DEBUG" = "1" then ["-x"] else []) ++ ["-c"] ++
        [Quote ctx.isPrintWide (Join (c :: cs) " ")], by simp⟩
  · rw [NewSshExecCmd_unfold]
    simp

/-- C9 at `exec -w srv1 ls -la`, the server running at 10.0.0.5 and port 22
open. -/
theorem runExec_wait_launches_ssh_witness :
    runExec (ctxOf "" "") sampleCommand false true ("srv1" :: "ls" :: ["-la"])
        { servers := Result.value (serverWith "running" "10.0.0.5") :: [],
          dials := ([] : List Error).map DialOutcome.refused ++ DialOutcome.connected :: [],
          runs := none :: [], trace := [] } =
      some (exitAfterRun none,
        { servers := [], dials := [], runs := [],
          trace := [] ++ helpEvents false ++
            [Event.resolve "srv1", Event.getServer "srv1-id"] ++
            retries (Event.dial "tcp" ("10.0.0.5" ++ ":22")) 0 ++
            [Event.dial "tcp" ("10.0.0.5" ++ ":22"), Event.close ("10.0.0.5" ++ ":22"),
              Event.run "ssh" (NewSshExecCmd (ctxOf "" "") "10.0.0.5" true ("ls" :: ["-la"]))] }) ∧
    (∃ front back, NewSshExecCmd (ctxOf "" "") "10.0.0.5" true ("ls" :: ["-la"]) =
      front ++ ["-l", "root", "10.0.0.5"] ++ back) ∧
    "-t" ∈ NewSshExecCmd (ctxOf "" "") "10.0.0.5" true ("ls" :: ["-la"]) ∧
    (NewSshExecCmd (ctxOf "" "") "10.0.0.5" true ("ls" :: ["-la"])).getLast? =
      some (Quote (ctxOf "" "").isPrintWide (Join ("ls" :: ["-la"]) " ")) :=
  runExec_wait_launches_ssh (ctxOf "" "") sampleCommand false "srv1" "ls" ["-la"] "srv1-id"
    (serverWith "running" "10.0.0.5") [] [] [] none [] [] (by decide) (by decide) (by decide)

/-- C10: with fewer than two arguments `runExec` ends in the usage step: the
process exits, the responses of the API, of the network and of the child
process are all left unread, and the events of the run are not resolutions,
fetches, dials or launches; the last of them is the short usage, unless `-h`
was given and printing the help ends the process. -/
theorem runExec_missing_command (ctx : Context) (cmd : Command) (execHelp execW : Bool)
    (args : List String) (w : World) (hargs : args.length < 2) :
    ∃ events : List Event,
      runExec ctx cmd execHelp execW args w =
        some (Exit.exited none, { w with trace := w.trace ++ events }) ∧
      (∀ e ∈ events, e.isExternal = false) ∧
      ((execHelp = true → cmd.usageExits = false) →
        events = helpEvents execHelp ++ [Event.printShortUsage]) := by
  cases execHelp with
  | false =>
    refine ⟨[Event.printShortUsage], ?_, ?_, ?_⟩
    · simp [runExec, hargs, PrintShortUsage]
    · intro e he
      simp only [List.mem_singleton] at he
      subst he
      rfl
    · intro _
      rfl
  | true =>
    cases hu : cmd.usageExits with
    | true =>
      refine ⟨[Event.printUsage], ?_, ?_, ?_⟩
      · simp [runExec, PrintUsage, hu]
      · intro e he
        simp only [List.mem_singleton] at he
        subst he
        rfl
      · intro h
        exact absurd (h rfl) (by simp)
    | false =>
      refine ⟨[Event.printUsage, Event.printShortUsage], ?_, ?_, ?_⟩
      · simp [runExec, PrintUsage, hu, hargs, PrintShortUsage]
      · intro e he
        simp only [List.mem_cons, List.mem_singleton, List.not_mem_nil, or_false] at he
        rcases he with rfl | rfl <;> rfl
      · intro _
        rfl

/-- C10 at `exec srv1`: only the server is given. -/
theorem runExec_missing_command_witness :
    ∃ events : List Event,
      runExec (ctxOf "" "") sampleCommand false true ["srv1"] startingWorld =
        some (Exit.exited none,
          { startingWorld with trace := startingWorld.trace ++ events }) ∧
      (∀ e ∈ events, e.isExternal = false) ∧
      ((false = true → sampleCommand.usageExits = false) →
        events = helpEvents false ++ [Event.printShortUsage]) :=
  runExec_missing_command (ctxOf "" "") sampleCommand false true ["srv1"] startingWorld
    (by decide)

end ScwExec
